import Mathlib

/-!
Verification of the Brain_Tumor_Classification_V2 repository
(`src/streamlit_app.py`) against its natural-language specification.

The script is embedded shallowly:

* numpy arrays carry their shape explicitly: `Grid` is a 2-d float array
  (gradient map), `Img` a 3-channel image; float values are modelled by `ℚ`;
* the leading batch dimension of `img_array` (`np.expand_dims(..., axis=0)`)
  is dropped: all Lean images stand for the single element `arr[0]`;
* library primitives whose numerics live outside the repository
  (TensorFlow's `tape.gradient`, `cv2.GaussianBlur`, the JET colour lookup
  table) enter as explicit function parameters; everything the script itself
  computes (masking, normalisation, percentile threshold, overlay arithmetic,
  argmax/argsort glue) is defined concretely below;
* fallible operations (numpy reductions over empty selections, shape
  mismatches, external calls) return `Option`/`Except`, matching the
  exceptions the libraries would raise.
-/

namespace BrainTumorApp

/-- A 2-d float array (numpy `ndarray` of shape `(h, w)`), values in `ℚ`.
The data function is total; entries outside `[0,h) × [0,w)` are irrelevant
padding, as for a numpy array only in-range reads occur in the script. -/
structure Grid where
  h : ℕ
  w : ℕ
  data : ℕ → ℕ → ℚ

/-- A 3-channel float image (numpy `ndarray` of shape `(h, w, 3)`). -/
structure Img where
  h : ℕ
  w : ℕ
  data : ℕ → ℕ → Fin 3 → ℚ

/-- `ndarray.max()` of a 1-d vector: `none` on the empty vector (numpy raises
`ValueError` there). -/
def listMax : List ℚ → Option ℚ
  | [] => none
  | a :: t => some (t.foldl max a)

/-- `ndarray.min()` of a 1-d vector: `none` on the empty vector. -/
def listMin : List ℚ → Option ℚ
  | [] => none
  | a :: t => some (t.foldl min a)

/-- Lines 59-62: `tf.math.abs` of the gradient tensor followed by
`tf.reduce_max(..., axis=-1)` and `.squeeze()`: channel-wise maximum of the
absolute gradient, one scalar per pixel.  The gradient tensor itself
(lines 53-59, TensorFlow's `tape.gradient` of the predicted-class score with
respect to the input) is supplied as the input `t`. -/
def gradMagnitude (t : Img) : Grid :=
  { h := t.h, w := t.w,
    data := fun y x => max (max |t.data y x 0| |t.data y x 1|) |t.data y x 2| }

/-- Line 65 / line 94: `cv2.resize(g, dsize)` with `dsize = (width, height)`,
modelled by nearest-neighbour sampling; the output shape is
`(dsize.2, dsize.1)` as for cv2. -/
def resizeGrid (g : Grid) (dsize : ℕ × ℕ) : Grid :=
  { h := dsize.2, w := dsize.1,
    data := fun y x => g.data (y * g.h / dsize.2) (x * g.w / dsize.1) }

/-- Lines 68-71: the circular brain mask.  `center = (h // 2, w // 2)`,
`radius = min center - 10`, and a pixel at row `y`, column `x` is inside iff
`(x - center.1)² + (y - center.2)² ≤ radius²` (the script compares the column
coordinate with `center[0]` and the row coordinate with `center[1]`). -/
def inMask (g : Grid) (y x : ℕ) : Bool :=
  ((x : ℤ) - (g.h / 2 : ℕ)) ^ 2 + ((y : ℤ) - (g.w / 2 : ℕ)) ^ 2
    ≤ ((min (g.h / 2) (g.w / 2) : ℕ) - 10) ^ 2

/-- Line 74: `gradients = gradients * mask` (booleans multiply as 0/1). -/
def maskStep (g : Grid) : Grid :=
  { g with data := fun y x => g.data y x * (if inMask g y x then 1 else 0) }

/-- Line 77: `gradients[mask]` — the masked values read in row-major order. -/
def maskedVals (g : Grid) : List ℚ :=
  (List.range g.h).flatMap fun y =>
    (List.range g.w).filterMap fun x =>
      if inMask g y x then some (g.data y x) else none

/-- Lines 76-80: min-max normalisation of the brain area.  The script
extracts `brain_gradients = gradients[mask]`, normalises that vector only
when `max > min`, and writes it back at the masked positions; since the
normalisation is elementwise, the positional write-back
`gradients[mask] = brain_gradients` acts pointwise on masked pixels (and is
the identity when the guard was not taken).  `none` when the mask selects no
pixel (numpy's `.max()` raises on an empty selection). -/
def normalizeStep (g : Grid) : Option Grid :=
  match listMax (maskedVals g), listMin (maskedVals g) with
  | some mx, some mn =>
    some (if mn < mx then
            { g with data := fun y x =>
                if inMask g y x then (g.data y x - mn) / (mx - mn)
                else g.data y x }
          else g)
  | _, _ => none

/-- `np.percentile(l, 80)` with the default linear interpolation:
sort ascending, take rank `0.8 * (n-1)`, and interpolate between the
neighbouring order statistics.  `none` on the empty vector (numpy raises). -/
def percentile80 (l : List ℚ) : Option ℚ :=
  match List.insertionSort (fun a b : ℚ => a ≤ b) l with
  | [] => none
  | s =>
    let rank : ℚ := (4 * ((s.length : ℚ) - 1)) / 5
    let k : ℕ := (⌊rank⌋).toNat
    let vk := s.getD k 0
    some (vk + (rank - (k : ℚ)) * (s.getD (k + 1) vk - vk))

/-- Lines 82-84: `threshold = np.percentile(gradients[mask], 80)` followed by
`gradients[gradients < threshold] = 0` over the whole array. -/
def thresholdStep (g : Grid) : Option Grid :=
  (percentile80 (maskedVals g)).map fun t =>
    { g with data := fun y x => if g.data y x < t then 0 else g.data y x }

/-- Line 87: `cv2.GaussianBlur(g, (11, 11), 0)` — a shape-preserving library
convolution, supplied as the data transformation `blur`. -/
def blurStep (blur : Grid → ℕ → ℕ → ℚ) (g : Grid) : Grid :=
  { h := g.h, w := g.w, data := blur g }

/-- numpy cast of a float to `uint8` (`np.uint8` / `astype(np.uint8)`):
truncation toward zero, wrapped modulo 256. -/
def u8 (v : ℚ) : ℕ :=
  (((if 0 ≤ v then ⌊v⌋ else ⌈v⌉)) % 256).toNat

/-- Line 90: `cv2.applyColorMap(np.uint8(255 * g), cv2.COLORMAP_JET)` — the
JET lookup table `jet` (library data) applied to the wrapped byte value of
each pixel. -/
def applyJet (jet : ℕ → Fin 3 → ℚ) (g : Grid) : Img :=
  { h := g.h, w := g.w, data := fun y x c => jet (u8 (255 * g.data y x)) c }

/-- The channel permutation of `cv2.COLOR_BGR2RGB`. -/
def swapRB : Fin 3 → Fin 3 := fun c => if c = 0 then 2 else if c = 2 then 0 else 1

/-- Line 91: `cv2.cvtColor(heatmap, cv2.COLOR_BGR2RGB)`. -/
def cvtBGR2RGB (m : Img) : Img :=
  { m with data := fun y x c => m.data y x (swapRB c) }

/-- Lines 90-91: colour-map the gradient grid into an RGB heatmap. -/
def heatmapStep (jet : ℕ → Fin 3 → ℚ) (g : Grid) : Img :=
  cvtBGR2RGB (applyJet jet g)

/-- Line 94 analogue of `resizeGrid` for 3-channel images. -/
def resizeImg (m : Img) (dsize : ℕ × ℕ) : Img :=
  { h := dsize.2, w := dsize.1,
    data := fun y x c => m.data (y * m.h / dsize.2) (x * m.w / dsize.1) c }

/-- Line 97: `original_img = img_array[0] * 255` (elementwise scaling). -/
def scaleImg (c : ℚ) (m : Img) : Img :=
  { m with data := fun y x ch => m.data y x ch * c }

/-- Lines 98-99: `superimposed_img = (heatmap * 0.7 + original_img * 0.3)
.astype(np.uint8)`.  The elementwise sum requires equal shapes (numpy would
raise a broadcasting error otherwise), and the cast wraps to `uint8`. -/
def overlayStep (heatmap original_img : Img) : Option Img :=
  if heatmap.h = original_img.h ∧ heatmap.w = original_img.w then
    some { h := heatmap.h, w := heatmap.w,
           data := fun y x c =>
             (u8 (heatmap.data y x c * (7 / 10) + original_img.data y x c * (3 / 10)) : ℚ) }
  else none

/-- Lines 52-101: `generate_saliency_map(model, img_array, class_index,
img_size)`, written step for step in source order.  `gradTensor` stands for
the TensorFlow gradient of the predicted-class score with respect to the
input tensor (lines 53-59), `blur` for `cv2.GaussianBlur(·, (11,11), 0)` and
`jet` for the JET colour table — the three library numerics the script calls
but does not define. -/
def generate_saliency_map (gradTensor img_array : Img) (img_size : ℕ × ℕ)
    (blur : Grid → ℕ → ℕ → ℚ) (jet : ℕ → Fin 3 → ℚ) : Option Img :=
  let gradients := gradMagnitude gradTensor              -- lines 59-62
  let gradients := resizeGrid gradients img_size         -- line 65
  let gradients := maskStep gradients                    -- lines 67-74
  (normalizeStep gradients).bind fun gradients =>        -- lines 76-80
  (thresholdStep gradients).bind fun gradients =>        -- lines 82-84
  let gradients := blurStep blur gradients               -- line 87
  let heatmap := heatmapStep jet gradients               -- lines 90-91
  let heatmap := resizeImg heatmap img_size              -- line 94
  let original_img := scaleImg 255 img_array             -- line 97
  overlayStep heatmap original_img                       -- lines 98-99

/-- The claimed step sequence of `generate_saliency_map`: gradient magnitude,
resize to the image size, circular mask, min-max normalisation of the masked
region, 80th-percentile threshold, Gaussian blur, colour map, blend over the
original image — and nothing else.  Written from the specification's wording
(section 1 / section 4) to be compared with `generate_saliency_map`. -/
def saliencySpecSteps (gradTensor img_array : Img) (img_size : ℕ × ℕ)
    (blur : Grid → ℕ → ℕ → ℚ) (jet : ℕ → Fin 3 → ℚ) : Option Img :=
  (normalizeStep (maskStep (resizeGrid (gradMagnitude gradTensor) img_size))).bind
    fun g =>
  (thresholdStep g).bind fun g =>
  overlayStep (heatmapStep jet (blurStep blur g)) (scaleImg 255 img_array)

/-- Line 151: `labels = ['Glioma', 'Meningioma', 'No tumor', 'Pituitary']`. -/
def labels : List String := ["Glioma", "Meningioma", "No tumor", "Pituitary"]

/-- `np.argmax` on a 1-d vector: the first index attaining the maximum
(`0` on the empty vector, where numpy raises before this is ever reached). -/
def argmaxList : List ℚ → ℕ
  | [] => 0
  | [_] => 0
  | v :: w :: t =>
    if v < (w :: t).getD (argmaxList (w :: t)) 0 then argmaxList (w :: t) + 1
    else 0

/-- Line 160: `class_index = np.argmax(prediction[0])`. -/
def class_index (prediction0 : List ℚ) : ℕ := argmaxList prediction0

/-- Line 161: `result = labels[class_index]` (list indexing, defaulted out of
range; the script's vector always has the four softmax entries). -/
def resultLabel (prediction0 : List ℚ) : String :=
  labels.getD (class_index prediction0) ""

/-- Line 207: `np.argsort(probabilities)` — indices arranging the vector in
ascending order, modelled by a stable insertion sort of `[0, …, n-1]` on the
looked-up values. -/
def argsortAsc (l : List ℚ) : List ℕ :=
  List.insertionSort (fun i j => l.getD i 0 ≤ l.getD j 0) (List.range l.length)

/-- Line 207: `sorted_indices = np.argsort(probabilities)[::-1]`. -/
def sorted_indices (l : List ℚ) : List ℕ := (argsortAsc l).reverse

/-- Line 208: `sorted_labels = [labels[i] for i in sorted_indices]`. -/
def sortedLabels (l : List ℚ) : List String :=
  (sorted_indices l).map fun i => labels.getD i ""

/-- Line 209: `sorted_probabilities = probabilities[sorted_indices]`. -/
def sortedProbabilities (l : List ℚ) : List ℚ :=
  (sorted_indices l).map fun i => l.getD i 0

/-- Line 216: `marker_color = ['red' if label == result else 'blue' for label
in sorted_labels]`. -/
def markerColors (l : List ℚ) : List String :=
  (sortedLabels l).map fun lab => if lab = resultLabel l then "red" else "blue"

/-- Line 136: the accepted upload types,
`st.file_uploader("Choose an image...", type=["jpg", "jpeg", "png"])`. -/
def accepted_types : List String := ["jpg", "jpeg", "png"]

/-- Lines 139-142: the two options of the model-selection radio button. -/
def model_options : List String := ["Transfer Learning - Xception", "Custom_CNN"]

/-- The pretrained weight file each selection loads: line 127
(`model.load_weights("xception_model.weights.h5")` inside
`load_xception_model`) and line 148 (`load_model("cnn_model.h5")`). -/
def weight_file (selected : String) : String :=
  if selected = "Transfer Learning - Xception" then "xception_model.weights.h5"
  else "cnn_model.h5"

/-- Lines 153-156: `image.load_img(..., target_size)`, `img_to_array`,
`np.expand_dims` (batch dimension, dropped in this embedding) and
`img_array /= 255`. -/
def preprocess (img : Img) : Img :=
  { img with data := fun y x c => img.data y x c / 255 }

/-- The external operations the script calls, with their session inputs.
Every fallible library or network call is an `Except`: the script installs
no handler, so the embedding lets these results flow through unchanged. -/
structure Env (Model : Type) where
  /-- Line 136: the value of `st.file_uploader` (`None` before an upload). -/
  uploaded : Option String
  /-- Lines 139-142: the value of the `st.radio` model selector. -/
  selected_model : String
  /-- Lines 106-128: `load_xception_model()` (may fail: missing weights). -/
  load_xception_model : Except String Model
  /-- Line 148: `load_model("cnn_model.h5")` (may fail: missing weights). -/
  load_model_cnn : Except String Model
  /-- Line 153: `image.load_img(uploaded_file, target_size=img_size)`
  (may fail: bad upload). -/
  load_img : String → ℕ × ℕ → Except String Img
  /-- Line 158: `model.predict(img_array)[0]`, the output probability
  vector. -/
  predict : Model → Img → Except String (List ℚ)
  /-- Lines 53-59: the TensorFlow gradient of the score of the given class
  with respect to the input tensor. -/
  tapeGradient : Model → Img → ℕ → Except String Img
  /-- Line 87: `cv2.GaussianBlur(·, (11, 11), 0)` as a data transform. -/
  gaussBlur : Grid → ℕ → ℕ → ℚ
  /-- Line 90: the JET colour lookup table. -/
  jetColor : ℕ → Fin 3 → ℚ
  /-- Lines 24-46 and 245: `generate_explanation(saliency_map_array, result,
  confidence)` — the outbound generative-AI call (may fail: network). -/
  generate_content : Img → String → ℚ → Except String String

/-- Everything the script renders for one uploaded image. -/
structure Display where
  result : String
  class_index : ℕ
  prediction0 : List ℚ
  confidence : ℚ
  saliency : Img
  chart_labels : List String
  chart_probabilities : List ℚ
  chart_colors : List String
  explanation : String

/-- Lines 144-149: choose the classifier and its input size from the radio
selection: the Xception branch uses `(299, 299)`, any other selection loads
the CNN and uses `(224, 224)`. -/
def selectModel {Model : Type} (env : Env Model) :
    Except String (Model × (ℕ × ℕ)) :=
  if env.selected_model = "Transfer Learning - Xception" then
    env.load_xception_model.map fun m => (m, ((299 : ℕ), (299 : ℕ)))
  else
    env.load_model_cnn.map fun m => (m, ((224 : ℕ), (224 : ℕ)))

/-- Lines 132-248: the script body.  Nothing runs without an upload
(`if uploaded_file is not None:`); with one, the model is selected and
loaded, the image preprocessed, the prediction, saliency map, chart data and
explanation computed in source order.  No step is wrapped in a handler: each
`Except` failure propagates to the result unchanged. -/
def runScript {Model : Type} (env : Env Model) :
    Except String (Option Display) :=
  match env.uploaded with
  | none => Except.ok none
  | some file =>
    (selectModel env).bind fun choice =>                    -- lines 144-149
    (env.load_img file choice.2).bind fun img =>            -- line 153
    let img_array := preprocess img                         -- lines 154-156
    (env.predict choice.1 img_array).bind fun prediction0 => -- line 158
    let ci := class_index prediction0                       -- line 160
    let result := labels.getD ci ""                         -- line 161
    (env.tapeGradient choice.1 img_array ci).bind fun gradT =>
    (match generate_saliency_map gradT img_array choice.2
        env.gaussBlur env.jetColor with                     -- line 169
     | some s => Except.ok s
     | none => Except.error "numpy error").bind fun sal =>
    let confidence := prediction0.getD ci 0                 -- line 196
    (env.generate_content sal result confidence).bind fun expl =>
    Except.ok (some
      { result := result
        class_index := ci
        prediction0 := prediction0
        confidence := confidence
        saliency := sal
        chart_labels := sortedLabels prediction0            -- line 208
        chart_probabilities := sortedProbabilities prediction0
        chart_colors := markerColors prediction0            -- line 216
        explanation := expl })

/-! ## Helper lemmas -/

theorem argmaxList_spec (l : List ℚ) (h : l ≠ []) :
    argmaxList l < l.length ∧
    (∀ j, j < l.length → l.getD j 0 ≤ l.getD (argmaxList l) 0) ∧
    (∀ j, j < argmaxList l → l.getD j 0 < l.getD (argmaxList l) 0) := by
  induction l with
  | nil => exact absurd rfl h
  | cons v t ih =>
    cases t with
    | nil =>
      refine ⟨by simp [argmaxList], fun j hj => ?_, fun j hj => ?_⟩
      · have hj0 : j = 0 := by simpa using hj
        subst hj0
        simp [argmaxList]
      · simp [argmaxList] at hj
    | cons w s =>
      obtain ⟨ih1, ih2, ih3⟩ := ih (by simp)
      by_cases hv : v < (w :: s).getD (argmaxList (w :: s)) 0
      · have he : argmaxList (v :: w :: s) = argmaxList (w :: s) + 1 := by
          rw [argmaxList, if_pos hv]
        refine ⟨?_, fun j hj => ?_, fun j hj => ?_⟩
        · rw [he]
          simpa using ih1
        · rw [he, List.getD_cons_succ]
          cases j with
          | zero => exact le_of_lt hv
          | succ k =>
            rw [List.getD_cons_succ]
            exact ih2 k (by simpa using hj)
        · rw [he, List.getD_cons_succ]
          cases j with
          | zero => exact hv
          | succ k =>
            rw [List.getD_cons_succ]
            exact ih3 k (by rw [he] at hj; omega)
      · have he : argmaxList (v :: w :: s) = 0 := by
          rw [argmaxList, if_neg hv]
        refine ⟨by simp [he], fun j hj => ?_, fun j hj => ?_⟩
        · rw [he, List.getD_cons_zero]
          cases j with
          | zero => simp
          | succ k =>
            rw [List.getD_cons_succ]
            exact le_trans (ih2 k (by simpa using hj)) (not_lt.mp hv)
        · rw [he] at hj
          omega

/-! ## C1 -/

/-- C1: for every output probability vector, the predicted class index is the
argmax of `prediction[0]` — it is a valid index, no entry of the vector
exceeds the entry there, every earlier entry is strictly smaller (numpy's
first-occurrence rule) — and the displayed class is the label at that index
in `['Glioma', 'Meningioma', 'No tumor', 'Pituitary']`. -/
theorem predicted_class_is_argmax (prediction0 : List ℚ) (h : prediction0 ≠ []) :
    class_index prediction0 < prediction0.length ∧
    (∀ j, j < prediction0.length →
      prediction0.getD j 0 ≤ prediction0.getD (class_index prediction0) 0) ∧
    (∀ j, j < class_index prediction0 →
      prediction0.getD j 0 < prediction0.getD (class_index prediction0) 0) ∧
    resultLabel prediction0 = labels.getD (class_index prediction0) "" := by
  obtain ⟨h1, h2, h3⟩ := argmaxList_spec prediction0 h
  exact ⟨h1, h2, h3, rfl⟩

/-- Witness for C1 at the concrete vector `[0, 1, 0, 0]`. -/
theorem predicted_class_is_argmax_witness :
    class_index [(0 : ℚ), 1, 0, 0] < ([(0 : ℚ), 1, 0, 0]).length ∧
    (∀ j, j < ([(0 : ℚ), 1, 0, 0]).length →
      ([(0 : ℚ), 1, 0, 0]).getD j 0 ≤
        ([(0 : ℚ), 1, 0, 0]).getD (class_index [(0 : ℚ), 1, 0, 0]) 0) ∧
    (∀ j, j < class_index [(0 : ℚ), 1, 0, 0] →
      ([(0 : ℚ), 1, 0, 0]).getD j 0 <
        ([(0 : ℚ), 1, 0, 0]).getD (class_index [(0 : ℚ), 1, 0, 0]) 0) ∧
    resultLabel [(0 : ℚ), 1, 0, 0] =
      labels.getD (class_index [(0 : ℚ), 1, 0, 0]) "" :=
  predicted_class_is_argmax [(0 : ℚ), 1, 0, 0] (by decide)

/-! ## C6 -/

/-- C6: the model selector toggles between exactly two options; the Xception
selection loads the Xception weight file with image size `(299, 299)`, and
any other selection loads `cnn_model.h5` with image size `(224, 224)`. -/
theorem model_selection_toggle {Model : Type} (env : Env Model) :
    model_options = ["Transfer Learning - Xception", "Custom_CNN"] ∧
    (env.selected_model = "Transfer Learning - Xception" →
      weight_file env.selected_model = "xception_model.weights.h5" ∧
      selectModel env =
        env.load_xception_model.map fun m => (m, ((299 : ℕ), (299 : ℕ)))) ∧
    (env.selected_model ≠ "Transfer Learning - Xception" →
      weight_file env.selected_model = "cnn_model.h5" ∧
      selectModel env =
        env.load_model_cnn.map fun m => (m, ((224 : ℕ), (224 : ℕ)))) := by
  refine ⟨rfl, fun h => ?_, fun h => ?_⟩ <;>
    constructor <;> simp [selectModel, weight_file, h]

/-- A concrete no-op session with the CNN selected. -/
def envCNN : Env Unit where
  uploaded := some "scan.jpg"
  selected_model := "Custom_CNN"
  load_xception_model := Except.ok ()
  load_model_cnn := Except.ok ()
  load_img := fun _ _ => Except.ok ⟨4, 4, fun _ _ _ => 0⟩
  predict := fun _ _ => Except.ok [0, 1, 0, 0]
  tapeGradient := fun _ _ _ => Except.ok ⟨4, 4, fun _ _ _ => 0⟩
  gaussBlur := fun g => g.data
  jetColor := fun _ _ => 0
  generate_content := fun _ _ _ => Except.ok "explanation"

/-- Witness for C6: the non-Xception branch at the concrete selection
`"Custom_CNN"`. -/
theorem model_selection_toggle_witness :
    weight_file envCNN.selected_model = "cnn_model.h5" ∧
    selectModel envCNN =
      envCNN.load_model_cnn.map (fun m => (m, ((224 : ℕ), (224 : ℕ)))) :=
  (model_selection_toggle envCNN).2.2 (by decide)

/-! ## C7 -/

/-- C7: the upload form accepts exactly the file types jpg, jpeg and png, and
without an uploaded file the script body produces nothing — no model load,
prediction, saliency or explanation. -/
theorem upload_gate {Model : Type} (env : Env Model) :
    accepted_types = ["jpg", "jpeg", "png"] ∧
    (env.uploaded = none → runScript env = Except.ok none) := by
  refine ⟨rfl, fun h => ?_⟩
  unfold runScript
  rw [h]

/-- The CNN session with no file uploaded. -/
def envNoUpload : Env Unit := { envCNN with uploaded := none }

/-- Witness for C7 at a concrete session with no upload. -/
theorem upload_gate_witness :
    accepted_types = ["jpg", "jpeg", "png"] ∧
    runScript envNoUpload = Except.ok none :=
  ⟨(upload_gate envNoUpload).1, (upload_gate envNoUpload).2 rfl⟩

/-! ## C4 -/

theorem ebind_ok {α β : Type} (a : α) (f : α → Except String β) :
    (Except.ok a : Except String α).bind f = f a := rfl

theorem ebind_error {α β : Type} (e : String) (f : α → Except String β) :
    (Except.error e : Except String α).bind f = Except.error e := rfl

/-- C4: the script installs no exception handler: whichever step fails first
— model loading (missing weight file), image loading (bad upload), the
prediction, the gradient, the saliency computation, or the generative-AI
call (network failure) — its error leaves the script unchanged as the
script's own outcome; there is no retry and no recovery. -/
theorem no_exception_handling {Model : Type} (env : Env Model) (file e : String)
    (hup : env.uploaded = some file) :
    (selectModel env = Except.error e → runScript env = Except.error e) ∧
    ∀ m (sz : ℕ × ℕ), selectModel env = Except.ok (m, sz) →
      (env.load_img file sz = Except.error e → runScript env = Except.error e) ∧
      ∀ img, env.load_img file sz = Except.ok img →
        (env.predict m (preprocess img) = Except.error e →
          runScript env = Except.error e) ∧
        ∀ p, env.predict m (preprocess img) = Except.ok p →
          (env.tapeGradient m (preprocess img) (class_index p) = Except.error e →
            runScript env = Except.error e) ∧
          ∀ gt, env.tapeGradient m (preprocess img) (class_index p) = Except.ok gt →
            (generate_saliency_map gt (preprocess img) sz
                env.gaussBlur env.jetColor = none →
              runScript env = Except.error "numpy error") ∧
            ∀ sal, generate_saliency_map gt (preprocess img) sz
                env.gaussBlur env.jetColor = some sal →
              env.generate_content sal (labels.getD (class_index p) "")
                  (p.getD (class_index p) 0) = Except.error e →
                runScript env = Except.error e := by
  unfold runScript
  rw [hup]
  dsimp only
  refine ⟨fun h => by rw [h, ebind_error], fun m sz hsel => ?_⟩
  rw [hsel, ebind_ok]
  dsimp only
  refine ⟨fun h => by rw [h, ebind_error], fun img himg => ?_⟩
  rw [himg, ebind_ok]
  refine ⟨fun h => by rw [h, ebind_error], fun p hp => ?_⟩
  rw [hp, ebind_ok]
  refine ⟨fun h => by rw [h, ebind_error], fun gt hgt => ?_⟩
  rw [hgt, ebind_ok]
  refine ⟨fun h => by rw [h, ebind_error], fun sal hsal hgen => ?_⟩
  rw [hsal]
  dsimp only
  rw [ebind_ok, hgen, ebind_error]

/-- The Xception session whose weight file is missing. -/
def envMissingWeights : Env Unit :=
  { envCNN with
    selected_model := "Transfer Learning - Xception"
    load_xception_model := Except.error "missing weights" }

/-- Witness for C4: a failed Xception weight load surfaces as the script's
own error. -/
theorem no_exception_handling_witness :
    runScript envMissingWeights = Except.error "missing weights" :=
  (no_exception_handling envMissingWeights "scan.jpg" "missing weights" rfl).1
    (by simp [selectModel, envMissingWeights, envCNN, Except.map])

/-! ## Bounds of `listMax` / `listMin` and mask membership -/

theorem le_foldl_max : ∀ (t : List ℚ) (a : ℚ), a ≤ t.foldl max a
  | [], a => le_refl a
  | b :: t, a => le_trans (le_max_left a b) (le_foldl_max t (max a b))

theorem mem_le_foldl_max : ∀ (t : List ℚ) (a v : ℚ), v ∈ t → v ≤ t.foldl max a
  | b :: t, a, v, hv => by
    cases hv with
    | head => exact le_trans (le_max_right a b) (le_foldl_max t (max a b))
    | tail _ h => exact mem_le_foldl_max t (max a b) v h

theorem foldl_min_le : ∀ (t : List ℚ) (a : ℚ), t.foldl min a ≤ a
  | [], a => le_refl a
  | b :: t, a => le_trans (foldl_min_le t (min a b)) (min_le_left a b)

theorem foldl_min_le_mem : ∀ (t : List ℚ) (a v : ℚ), v ∈ t → t.foldl min a ≤ v
  | b :: t, a, v, hv => by
    cases hv with
    | head => exact le_trans (foldl_min_le t (min a b)) (min_le_right a b)
    | tail _ h => exact foldl_min_le_mem t (min a b) v h

theorem le_listMax {l : List ℚ} {mx : ℚ} (h : listMax l = some mx) :
    ∀ v ∈ l, v ≤ mx := by
  cases l with
  | nil => cases h
  | cons a t =>
    obtain rfl : t.foldl max a = mx := Option.some_inj.mp h
    intro v hv
    cases hv with
    | head => exact le_foldl_max t a
    | tail _ h => exact mem_le_foldl_max t a v h

theorem listMin_le {l : List ℚ} {mn : ℚ} (h : listMin l = some mn) :
    ∀ v ∈ l, mn ≤ v := by
  cases l with
  | nil => cases h
  | cons a t =>
    obtain rfl : t.foldl min a = mn := Option.some_inj.mp h
    intro v hv
    cases hv with
    | head => exact foldl_min_le t a
    | tail _ h => exact foldl_min_le_mem t a v h

theorem mem_maskedVals (g : Grid) (y x : ℕ) (hy : y < g.h) (hx : x < g.w)
    (hm : inMask g y x = true) : g.data y x ∈ maskedVals g := by
  unfold maskedVals
  refine List.mem_flatMap.mpr ⟨y, List.mem_range.mpr hy, ?_⟩
  refine List.mem_filterMap.mpr ⟨x, List.mem_range.mpr hx, ?_⟩
  rw [if_pos hm]

/-! ## C5 -/

/-- A 1×1 grid holding a constant gradient field. -/
def constGrid1 : Grid := ⟨1, 1, fun _ _ => 1⟩

/-- A 2×2 grid whose masked values are not all equal (its whole area lies in
the brain mask, whose squared radius is (1-10)² = 81). -/
def varGrid2 : Grid := ⟨2, 2, fun y x => match y, x with | 0, 0 => 1 | _, _ => 3⟩

/-- C5 counterexample: lines 76-80 DO contain a conditional branch guarding a
degenerate input.  On a constant gradient field the masked maximum equals
the masked minimum, the `max > min` branch is not taken and the grid passes
through the normalisation unchanged; on a non-constant field the branch is
taken and the same pixel value is rescaled (1 becomes 0). -/
theorem saliency_guard_counterexample :
    normalizeStep constGrid1 = some constGrid1 ∧
    listMax (maskedVals constGrid1) = listMin (maskedVals constGrid1) ∧
    (normalizeStep varGrid2).map (fun g => g.data 0 0) = some 0 ∧
    varGrid2.data 0 0 = 1 := by
  have hmax1 : listMax (maskedVals constGrid1) = some 1 := by decide
  have hmin1 : listMin (maskedVals constGrid1) = some 1 := by decide
  have hmax2 : listMax (maskedVals varGrid2) = some 3 := by decide
  have hmin2 : listMin (maskedVals varGrid2) = some 1 := by decide
  refine ⟨?_, by rw [hmax1, hmin1], ?_, rfl⟩
  · simp only [normalizeStep, hmax1, hmin1, if_neg (lt_irrefl (1 : ℚ))]
  · simp only [normalizeStep, hmax2, hmin2,
      if_pos (show (1 : ℚ) < 3 by norm_num), Option.map_some']
    have hm : inMask varGrid2 0 0 = true := by decide
    simp only [hm, if_true, Option.some.injEq]
    norm_num [varGrid2]

/-- C5 (amended): the saliency computation performs its fixed sequence of
operations with exactly one piece of edge-case handling: the min-max
normalisation of lines 76-80 runs only when the masked maximum strictly
exceeds the masked minimum, so a degenerate constant gradient field passes
through it unchanged; when the guard holds the masked pixels are rescaled
pointwise. -/
theorem saliency_single_guard (g : Grid) (mx mn : ℚ)
    (hmax : listMax (maskedVals g) = some mx)
    (hmin : listMin (maskedVals g) = some mn) :
    (¬ mn < mx → normalizeStep g = some g) ∧
    (mn < mx → normalizeStep g =
      some { g with data := fun y x =>
               if inMask g y x then (g.data y x - mn) / (mx - mn)
               else g.data y x }) := by
  constructor
  · intro h
    simp only [normalizeStep, hmax, hmin, if_neg h]
  · intro h
    simp only [normalizeStep, hmax, hmin, if_pos h]

/-- Witness for the amended C5 at the concrete constant grid. -/
theorem saliency_single_guard_witness :
    (¬ (1 : ℚ) < 1 → normalizeStep constGrid1 = some constGrid1) ∧
    ((1 : ℚ) < 1 → normalizeStep constGrid1 =
      some { constGrid1 with data := fun y x =>
               if (inMask constGrid1 y x) then (constGrid1.data y x - 1) / (1 - 1)
               else constGrid1.data y x }) :=
  saliency_single_guard constGrid1 1 1 (by decide) (by decide)

/-! ## C8 -/

/-- C8: the min-max normalisation of the masked gradient values runs only
when their maximum strictly exceeds their minimum — so its divisor
`max - min` is never zero — and whenever it runs, every in-range masked
pixel of the result lies in the closed interval [0, 1]. -/
theorem normalization_guard_safe (g : Grid) (mx mn : ℚ)
    (hmax : listMax (maskedVals g) = some mx)
    (hmin : listMin (maskedVals g) = some mn) :
    (¬ mn < mx → normalizeStep g = some g) ∧
    (mn < mx → mx - mn ≠ 0 ∧
      ∀ out, normalizeStep g = some out →
        ∀ y x, y < g.h → x < g.w → inMask g y x = true →
          0 ≤ out.data y x ∧ out.data y x ≤ 1) := by
  constructor
  · intro h
    simp only [normalizeStep, hmax, hmin, if_neg h]
  · intro h
    refine ⟨sub_ne_zero.mpr (ne_of_gt h), fun out hout y x hy hx hm => ?_⟩
    simp only [normalizeStep, hmax, hmin, if_pos h] at hout
    obtain rfl : _ = out := Option.some_inj.mp hout
    dsimp only
    rw [if_pos hm]
    have hv : g.data y x ∈ maskedVals g := mem_maskedVals g y x hy hx hm
    have h1 : mn ≤ g.data y x := listMin_le hmin _ hv
    have h2 : g.data y x ≤ mx := le_listMax hmax _ hv
    constructor
    · exact div_nonneg (sub_nonneg.mpr h1) (le_of_lt (sub_pos.mpr h))
    · rw [div_le_one (sub_pos.mpr h)]
      exact sub_le_sub_right h2 mn

/-- Witness for C8 at the concrete non-constant grid (min 1, max 3). -/
theorem normalization_guard_safe_witness :
    (¬ (1 : ℚ) < 3 → normalizeStep varGrid2 = some varGrid2) ∧
    ((1 : ℚ) < 3 → (3 : ℚ) - 1 ≠ 0 ∧
      ∀ out, normalizeStep varGrid2 = some out →
        ∀ y x, y < varGrid2.h → x < varGrid2.w → inMask varGrid2 y x = true →
          0 ≤ out.data y x ∧ out.data y x ≤ 1) :=
  normalization_guard_safe varGrid2 3 1 (by decide) (by decide)

/-! ## C10 -/

/-- C10: after the circular mask is applied, every gradient value at a pixel
outside the disc is zero, and the invariant survives the normalisation
write-back (which touches only masked pixels) and the percentile threshold
(which only sets values to zero, never makes a zero nonzero). -/
theorem mask_outside_zero (g : Grid) (y x : ℕ) (hm : inMask g y x = false) :
    (maskStep g).data y x = 0 ∧
    ∀ g1, normalizeStep (maskStep g) = some g1 →
      g1.data y x = 0 ∧
      ∀ g2, thresholdStep g1 = some g2 → g2.data y x = 0 := by
  have hmask : (maskStep g).data y x = 0 := by
    unfold maskStep
    dsimp only
    rw [hm]
    simp
  refine ⟨hmask, fun g1 h1 => ?_⟩
  have hm' : inMask (maskStep g) y x = false := hm
  have hg1 : g1.data y x = 0 := by
    unfold normalizeStep at h1
    cases hA : listMax (maskedVals (maskStep g)) with
    | none => rw [hA] at h1; simp at h1
    | some mx =>
      cases hB : listMin (maskedVals (maskStep g)) with
      | none => rw [hA, hB] at h1; simp at h1
      | some mn =>
        rw [hA, hB] at h1
        simp only [Option.some.injEq] at h1
        subst h1
        by_cases hlt : mn < mx
        · rw [if_pos hlt]
          dsimp only
          rw [if_neg (by rw [hm']; exact Bool.false_ne_true), hmask]
        · rw [if_neg hlt]
          exact hmask
  refine ⟨hg1, fun g2 h2 => ?_⟩
  unfold thresholdStep at h2
  cases hp : percentile80 (maskedVals g1) with
  | none => rw [hp] at h2; simp at h2
  | some t =>
    rw [hp, Option.map_some'] at h2
    obtain rfl : _ = g2 := Option.some_inj.mp h2
    dsimp only
    rw [hg1]
    split <;> rfl

/-- A 20×20 constant grid: its mask radius is `10 - 10 = 0`, so the pixel
(0,0) lies outside the brain disc. -/
def g20 : Grid := ⟨20, 20, fun _ _ => 1⟩

/-- Witness for C10 at the concrete pixel (0,0) of the 20×20 grid. -/
theorem mask_outside_zero_witness :
    (maskStep g20).data 0 0 = 0 ∧
    ∀ g1, normalizeStep (maskStep g20) = some g1 →
      g1.data 0 0 = 0 ∧
      ∀ g2, thresholdStep g1 = some g2 → g2.data 0 0 = 0 :=
  mask_outside_zero g20 0 0 (by decide)

/-! ## Shape preservation and totality of the saliency pipeline -/

theorem normalizeStep_dims {g o : Grid} (h : normalizeStep g = some o) :
    o.h = g.h ∧ o.w = g.w := by
  unfold normalizeStep at h
  cases hA : listMax (maskedVals g) with
  | none => rw [hA] at h; simp at h
  | some mx =>
    cases hB : listMin (maskedVals g) with
    | none => rw [hA, hB] at h; simp at h
    | some mn =>
      rw [hA, hB] at h
      simp only [Option.some.injEq] at h
      subst h
      by_cases hlt : mn < mx
      · rw [if_pos hlt]; exact ⟨rfl, rfl⟩
      · rw [if_neg hlt]; exact ⟨rfl, rfl⟩

theorem thresholdStep_dims {g o : Grid} (h : thresholdStep g = some o) :
    o.h = g.h ∧ o.w = g.w := by
  unfold thresholdStep at h
  cases hp : percentile80 (maskedVals g) with
  | none => rw [hp] at h; simp at h
  | some t =>
    rw [hp, Option.map_some'] at h
    obtain rfl : _ = o := Option.some_inj.mp h
    exact ⟨rfl, rfl⟩

theorem maskedVals_ne_nil (g : Grid) (h1 : g.w / 2 < g.h) (h2 : g.h / 2 < g.w) :
    maskedVals g ≠ [] := by
  apply List.ne_nil_of_mem (a := g.data (g.w / 2) (g.h / 2))
  apply mem_maskedVals g _ _ h1 h2
  unfold inMask
  simp only [decide_eq_true_eq, sub_self]
  norm_num
  positivity

theorem percentile80_isSome {l : List ℚ} (h : l ≠ []) :
    ∃ t, percentile80 l = some t := by
  unfold percentile80
  cases hs : List.insertionSort (fun a b : ℚ => a ≤ b) l with
  | nil =>
    exfalso
    have hp := List.perm_insertionSort (fun a b : ℚ => a ≤ b) l
    rw [hs] at hp
    exact h (List.eq_nil_of_length_eq_zero (by simpa using hp.length_eq.symm))
  | cons a t => exact ⟨_, rfl⟩

theorem listMax_isSome {l : List ℚ} (h : l ≠ []) :
    ∃ mx, listMax l = some mx := by
  cases l with
  | nil => exact absurd rfl h
  | cons a t => exact ⟨_, rfl⟩

theorem listMin_isSome {l : List ℚ} (h : l ≠ []) :
    ∃ mn, listMin l = some mn := by
  cases l with
  | nil => exact absurd rfl h
  | cons a t => exact ⟨_, rfl⟩

theorem normalizeStep_isSome {g : Grid} (h : maskedVals g ≠ []) :
    ∃ o, normalizeStep g = some o := by
  obtain ⟨mx, hmx⟩ := listMax_isSome h
  obtain ⟨mn, hmn⟩ := listMin_isSome h
  unfold normalizeStep
  rw [hmx, hmn]
  exact ⟨_, rfl⟩

theorem thresholdStep_isSome {g : Grid} (h : maskedVals g ≠ []) :
    ∃ o, thresholdStep g = some o := by
  obtain ⟨t, ht⟩ := percentile80_isSome h
  unfold thresholdStep
  rw [ht]
  exact ⟨_, rfl⟩

theorem generate_saliency_map_total (gradTensor img_array : Img) (s : ℕ)
    (hs : 0 < s) (hh : img_array.h = s) (hw : img_array.w = s)
    (blur : Grid → ℕ → ℕ → ℚ) (jet : ℕ → Fin 3 → ℚ) :
    ∃ out, generate_saliency_map gradTensor img_array (s, s) blur jet = some out := by
  have hlt : s / 2 < s := Nat.div_lt_self hs (by norm_num)
  have hne : maskedVals (maskStep (resizeGrid (gradMagnitude gradTensor) (s, s))) ≠ [] :=
    maskedVals_ne_nil _ hlt hlt
  obtain ⟨g1, hg1⟩ := normalizeStep_isSome hne
  have hd1 := normalizeStep_dims hg1
  have hne1 : maskedVals g1 ≠ [] := by
    apply maskedVals_ne_nil
    · rw [hd1.1, hd1.2]; exact hlt
    · rw [hd1.1, hd1.2]; exact hlt
  obtain ⟨g2, hg2⟩ := thresholdStep_isSome hne1
  unfold generate_saliency_map
  dsimp only
  rw [hg1, Option.some_bind, hg2, Option.some_bind]
  unfold overlayStep
  rw [if_pos ⟨hh.symm, hw.symm⟩]
  exact ⟨_, rfl⟩

/-! ## C3 -/

/-- C3: every saliency overlay the function returns has exactly the model's
input dimensions — `img_size` by `img_size` pixels. -/
theorem saliency_overlay_dims (gradTensor img_array : Img) (s : ℕ)
    (blur : Grid → ℕ → ℕ → ℚ) (jet : ℕ → Fin 3 → ℚ) (out : Img)
    (h : generate_saliency_map gradTensor img_array (s, s) blur jet = some out) :
    out.h = s ∧ out.w = s := by
  unfold generate_saliency_map at h
  dsimp only at h
  cases hn : normalizeStep (maskStep (resizeGrid (gradMagnitude gradTensor) (s, s))) with
  | none => rw [hn] at h; simp at h
  | some g1 =>
    rw [hn, Option.some_bind] at h
    cases ht : thresholdStep g1 with
    | none => rw [ht] at h; simp at h
    | some g2 =>
      rw [ht, Option.some_bind] at h
      unfold overlayStep at h
      split at h
      · obtain rfl : _ = out := Option.some_inj.mp h
        exact ⟨rfl, rfl⟩
      · cases h

/-- A concrete 4×4 zero gradient tensor. -/
def gradT4 : Img := ⟨4, 4, fun _ _ _ => 0⟩

/-- A concrete 4×4 zero image. -/
def img4 : Img := ⟨4, 4, fun _ _ _ => 0⟩

/-- A trivial stand-in for the Gaussian blur data transform. -/
def blur0 : Grid → ℕ → ℕ → ℚ := fun g => g.data

/-- A trivial stand-in for the JET lookup table. -/
def jet0 : ℕ → Fin 3 → ℚ := fun _ _ => 0

theorem saliency4_isSome :
    (generate_saliency_map gradT4 img4 (4, 4) blur0 jet0).isSome = true := by
  obtain ⟨o, ho⟩ :=
    generate_saliency_map_total gradT4 img4 4 (by norm_num) rfl rfl blur0 jet0
  rw [ho]; rfl

/-- The saliency overlay computed for the concrete 4×4 inputs. -/
def out4 : Img :=
  (generate_saliency_map gradT4 img4 (4, 4) blur0 jet0).get saliency4_isSome

/-- Witness for C3 at the concrete 4×4 inputs. -/
theorem saliency_overlay_dims_witness : out4.h = 4 ∧ out4.w = 4 :=
  saliency_overlay_dims gradT4 img4 4 blur0 jet0 out4
    (Option.some_get saliency4_isSome).symm

/-! ## C2 -/

theorem resizeImg_of_dims (m : Img) (s1 s2 : ℕ) (h1 : 0 < s1) (h2 : 0 < s2)
    (hh : m.h = s2) (hw : m.w = s1) : resizeImg m (s1, s2) = m := by
  unfold resizeImg
  obtain ⟨h, w, d⟩ := m
  dsimp only at hh hw ⊢
  subst hh hw
  congr 1
  funext y x c
  rw [Nat.mul_div_cancel y h2, Nat.mul_div_cancel x h1]

/-- C2: `generate_saliency_map` computes exactly the claimed sequence —
gradient magnitude of the predicted-class gradient, resize to the image
size, circular brain mask, min-max normalisation of the masked region,
zeroing below the 80th percentile of the masked values, Gaussian blur,
colour-map lookup, blend over the original image, in this order.  (The
script's extra `cv2.resize` of the heatmap, line 94, is the identity there:
the heatmap already has the target size.) -/
theorem saliency_step_sequence (gradTensor img_array : Img) (img_size : ℕ × ℕ)
    (blur : Grid → ℕ → ℕ → ℚ) (jet : ℕ → Fin 3 → ℚ)
    (h1 : 0 < img_size.1) (h2 : 0 < img_size.2) :
    generate_saliency_map gradTensor img_array img_size blur jet =
      saliencySpecSteps gradTensor img_array img_size blur jet := by
  obtain ⟨s1, s2⟩ := img_size
  unfold generate_saliency_map saliencySpecSteps
  dsimp only
  cases hn : normalizeStep (maskStep (resizeGrid (gradMagnitude gradTensor) (s1, s2))) with
  | none => rfl
  | some g1 =>
    simp only [Option.some_bind]
    cases ht : thresholdStep g1 with
    | none => rfl
    | some g2 =>
      simp only [Option.some_bind]
      have hd1 := thresholdStep_dims ht
      have hd2 := normalizeStep_dims hn
      rw [resizeImg_of_dims (heatmapStep jet (blurStep blur g2)) s1 s2 h1 h2
        (by rw [show (heatmapStep jet (blurStep blur g2)).h = g2.h from rfl,
                hd1.1, hd2.1]; rfl)
        (by rw [show (heatmapStep jet (blurStep blur g2)).w = g2.w from rfl,
                hd1.2, hd2.2]; rfl)]

/-- Witness for C2 at the concrete 4×4 inputs. -/
theorem saliency_step_sequence_witness :
    generate_saliency_map gradT4 img4 (4, 4) blur0 jet0 =
      saliencySpecSteps gradT4 img4 (4, 4) blur0 jet0 :=
  saliency_step_sequence gradT4 img4 (4, 4) blur0 jet0 (by norm_num) (by norm_num)

/-! ## C9 -/

theorem map_getD_range : ∀ (l : List ℚ),
    (List.range l.length).map (fun i => l.getD i 0) = l
  | [] => rfl
  | a :: t => by
    rw [List.length_cons, List.range_succ_eq_map, List.map_cons, List.map_map]
    simp only [List.getD_cons_zero]
    congr 1
    have hc : ((fun i => (a :: t).getD i 0) ∘ Nat.succ) = fun i => t.getD i 0 := by
      funext i
      simp [List.getD_cons_succ]
    rw [hc]
    exact map_getD_range t

/-- C9: the bar chart's probabilities are a permutation of the model's output
vector arranged in non-increasing order, the chart labels are the matching
permutation of the four class labels, and a bar is red exactly when its
label is the predicted class (blue otherwise). -/
theorem chart_data_sorted (p : List ℚ) (h4 : p.length = 4) :
    (sortedProbabilities p).Perm p ∧
    List.Pairwise (fun a b : ℚ => b ≤ a) (sortedProbabilities p) ∧
    (sorted_indices p).Perm (List.range 4) ∧
    sortedLabels p = (sorted_indices p).map (fun i => labels.getD i "") ∧
    (∀ k, k < (sortedLabels p).length →
      ((markerColors p).getD k "" = "red" ↔
        (sortedLabels p).getD k "" = resultLabel p)) := by
  have hperm0 : (argsortAsc p).Perm (List.range p.length) :=
    List.perm_insertionSort _ _
  have hpermR : (sorted_indices p).Perm (List.range p.length) :=
    (List.reverse_perm _).trans hperm0
  refine ⟨?_, ?_, ?_, rfl, ?_⟩
  · have hmap := hpermR.map (fun i => p.getD i 0)
    rw [map_getD_range p] at hmap
    exact hmap
  · have hsorted :
        List.Pairwise (fun i j => p.getD i 0 ≤ p.getD j 0) (argsortAsc p) := by
      have hs := @List.sorted_insertionSort ℕ (fun i j => p.getD i 0 ≤ p.getD j 0)
        (by infer_instance) ⟨fun i j => le_total _ _⟩
        ⟨fun a b c hab hbc => le_trans hab hbc⟩ (List.range p.length)
      unfold argsortAsc
      exact hs
    have hrev :
        List.Pairwise (fun i j => p.getD j 0 ≤ p.getD i 0) (sorted_indices p) :=
      List.pairwise_reverse.mpr hsorted
    exact List.Pairwise.map _ (fun a b hab => hab) hrev
  · rw [← h4]
    exact hpermR
  · intro k hk
    have hget : (sortedLabels p).get? k = some ((sortedLabels p).get ⟨k, hk⟩) :=
      List.get?_eq_get hk
    unfold markerColors
    rw [List.getD_eq_getD_get?, List.get?_map, hget, Option.map_some',
        Option.getD_some, List.getD_eq_getD_get?, hget, Option.getD_some]
    by_cases hc : (sortedLabels p).get ⟨k, hk⟩ = resultLabel p
    · rw [if_pos hc]
      exact ⟨fun _ => hc, fun _ => rfl⟩
    · rw [if_neg hc]
      exact ⟨fun hcontra => absurd hcontra (by decide), fun hc2 => absurd hc2 hc⟩

/-- Witness for C9 at the concrete probability vector `[0, 1, 0, 0]`. -/
theorem chart_data_sorted_witness :
    (sortedProbabilities [(0 : ℚ), 1, 0, 0]).Perm [(0 : ℚ), 1, 0, 0] ∧
    List.Pairwise (fun a b : ℚ => b ≤ a)
      (sortedProbabilities [(0 : ℚ), 1, 0, 0]) ∧
    (sorted_indices [(0 : ℚ), 1, 0, 0]).Perm (List.range 4) ∧
    sortedLabels [(0 : ℚ), 1, 0, 0] =
      (sorted_indices [(0 : ℚ), 1, 0, 0]).map (fun i => labels.getD i "") ∧
    (∀ k, k < (sortedLabels [(0 : ℚ), 1, 0, 0]).length →
      ((markerColors [(0 : ℚ), 1, 0, 0]).getD k "" = "red" ↔
        (sortedLabels [(0 : ℚ), 1, 0, 0]).getD k "" =
          resultLabel [(0 : ℚ), 1, 0, 0])) :=
  chart_data_sorted [(0 : ℚ), 1, 0, 0] rfl

end BrainTumorApp
